import Mathlib

/-!
Shallow embedding of the `openweathermap` crate's core (`src/lib.rs`):
the request-URL builder inside `init`, the background polling loop spawned
by `init`, and the consumer functions `update` and `weather`
(plus `blocking::weather`).

Conventions of the embedding:
* Rust strings are Lean `String`s (lists of characters via `String.data`).
* `location.parse::<u64>()` is modelled by `parseU64` (optional leading `'+'`,
  then one or more ASCII digits, value below `2 ^ 64`).
* The regex `(-?\d+\.\d+)\s*,\s*(-?\d+\.\d+)` searched with `Regex::captures`
  is modelled by `findPair`: the engine tries each start position from the
  left and at a position matches greedily.  For this particular pattern the
  greedy maximal-munch strategy coincides with the regex semantics, because
  after every `\d+` the pattern next requires a character (`.`, `\s`/`,`)
  that is never a digit, so no backtracking into a `\d+` can ever succeed;
  likewise skipping a present `-` never helps since `\d+` then fails on the
  `-`.  `\d` and `\s` are modelled at the ASCII level.
* The HTTP transport and the JSON decoder are external collaborators; one
  GET attempt is abstracted as a `NetResult`: a transport error, an OK
  response whose body parses to a report `w`, an OK response whose body
  fails to parse with message `msg`, or a non-OK status with description
  `desc`.  The report type `W` stays abstract (the engine never inspects it).
* The spawned thread is modelled as the function `engineTrace` from the
  sequence of network results it encounters to the sequence of observable
  events it produces: issuing a request, emitting a value on the channel,
  or sleeping.  The channel is the FIFO list of emitted values.
-/

namespace OWM

/-! ### Character classes (ASCII fragment of the regex classes) -/

/-- ASCII whitespace matched by the regex class `\s`. -/
def isSpaceChar (c : Char) : Bool :=
  c == ' ' || c == '\t' || c == '\n' || c == '\r' || c == '\x0b' || c == '\x0c'

/-- `headNot p l` holds when `l` is empty or its first element fails `p`. -/
def headNot (p : Char → Bool) : List Char → Bool
  | [] => true
  | c :: _ => !(p c)

/-! ### `str::parse::<u64>` -/

/-- Rust's unsigned-integer parser strips one optional leading `'+'`. -/
def stripPlus (l : List Char) : List Char :=
  if l.head? == some '+' then l.tail else l

/-- Value of a list of ASCII digits, most significant first. -/
def digitsVal (l : List Char) : Nat :=
  l.foldl (fun acc c => 10 * acc + (c.toNat - 48)) 0

/-- Model of `location.parse::<u64>()`: after stripping an optional `'+'`,
the remainder must be a nonempty string of ASCII digits whose value fits in
64 bits; otherwise the parse errors (`none`). -/
def parseU64 (l : List Char) : Option Nat :=
  let s := stripPlus l
  if s = [] then none
  else if s.all Char.isDigit then
    if digitsVal s < 2 ^ 64 then some (digitsVal s) else none
  else none

/-! ### The coordinate regex `(-?\d+\.\d+)\s*,\s*(-?\d+\.\d+)` -/

/-- Match `\d+` at the start of `l`: the (greedy, maximal) nonempty run of
digits and the rest of the input. -/
def matchDigits (l : List Char) : Option (List Char × List Char) :=
  if l.takeWhile Char.isDigit = [] then none
  else some (l.takeWhile Char.isDigit, l.dropWhile Char.isDigit)

/-- Match `\d+\.\d+` at the start of `l1`, prepending an already-consumed
sign `sgn` to the capture. -/
def matchDecimalTail (sgn l1 : List Char) : Option (List Char × List Char) :=
  match matchDigits l1 with
  | none => none
  | some (d1, r1) =>
    if r1.head? == some '.' then
      match matchDigits r1.tail with
      | none => none
      | some (d2, r3) => some (sgn ++ d1 ++ '.' :: d2, r3)
    else none

/-- Match `-?\d+\.\d+` at the start of `l`; on success return the matched
characters (the capture group) and the rest of the input. -/
def matchDecimal (l : List Char) : Option (List Char × List Char) :=
  matchDecimalTail (if l.head? == some '-' then ['-'] else [])
    (if l.head? == some '-' then l.tail else l)

/-- Match the whole pattern at the start of `l`; on success return the two
capture groups. -/
def matchPairAt (l : List Char) : Option (List Char × List Char) :=
  match matchDecimal l with
  | none => none
  | some (g1, r1) =>
    let r2 := r1.dropWhile isSpaceChar
    if r2.head? == some ',' then
      match matchDecimal ((r2.tail).dropWhile isSpaceChar) with
      | none => none
      | some (g2, _) => some (g1, g2)
    else none

/-- Model of `re.captures(&location)`: try the pattern at each start
position from the left, returning the first (leftmost) match. -/
def findPair : List Char → Option (List Char × List Char)
  | [] => none
  | c :: rest =>
    match matchPairAt (c :: rest) with
    | some p => some p
    | none => findPair rest

/-! ### Location classification and URL construction (`init`, lines 180-195) -/

/-- The three ways `init` interprets its `location` argument.  The payloads
are the exact strings interpolated into the URL (the code formats the
original `location` for `ById`/`ByName` and the regex captures for
`ByCoordinates`). -/
inductive LocationSpec where
  | ById (id : String)
  | ByCoordinates (lat lon : String)
  | ByName (name : String)
deriving DecidableEq, Repr

def apiBase : String := "https://api.openweathermap.org/data/2.5/weather"

def idUrl (loc units lang apiKey : String) : String :=
  apiBase ++ "?id=" ++ loc ++ "&units=" ++ units ++ "&lang=" ++ lang ++ "&appid=" ++ apiKey

def latLonUrl (lat lon units lang apiKey : String) : String :=
  apiBase ++ "?lat=" ++ lat ++ "&lon=" ++ lon ++ "&units=" ++ units ++ "&lang=" ++ lang
    ++ "&appid=" ++ apiKey

def nameUrl (name units lang apiKey : String) : String :=
  apiBase ++ "?q=" ++ name ++ "&units=" ++ units ++ "&lang=" ++ lang ++ "&appid=" ++ apiKey

/-- The dispatch in `init`: `location.parse::<u64>().is_ok()` selects the id
form, otherwise a regex match selects the coordinate form, otherwise the
free-text form. -/
def classify (location : String) : LocationSpec :=
  if (parseU64 location.data).isSome then .ById location
  else
    match findPair location.data with
    | some (lat, lon) => .ByCoordinates ⟨lat⟩ ⟨lon⟩
    | none => .ByName location

/-- The URL `init` computes before spawning the thread. -/
def buildUrl (location units lang apiKey : String) : String :=
  match classify location with
  | .ById loc => idUrl loc units lang apiKey
  | .ByCoordinates lat lon => latLonUrl lat lon units lang apiKey
  | .ByName name => nameUrl name units lang apiKey

/-! ### Shapes of inputs the coordinate regex accepts -/

/-- The characters of a signed decimal `-?<d1>.<d2>`. -/
def decimalChars (sg : Bool) (d1 d2 : List Char) : List Char :=
  (if sg then ['-'] else []) ++ d1 ++ '.' :: d2

/-- The characters of a full decimal pair
`-?<d1>.<d2><w1>,<w2>-?<e1>.<e2>`. -/
def pairChars (sg1 : Bool) (d1 d2 w1 w2 : List Char) (sg2 : Bool) (e1 e2 : List Char) :
    List Char :=
  decimalChars sg1 d1 d2 ++ (w1 ++ ',' :: (w2 ++ decimalChars sg2 e1 e2))

/-! ### The polling engine (`init`, lines 196-221) -/

/-- The loading sentinel `LOADING` from the crate. -/
def LOADING : String := "loading..."

/-- One item on the `mpsc` channel: Rust's `Result<CurrentWeather, String>`
with the report type kept abstract. -/
inductive RResult (W : Type) where
  | ok (w : W)
  | err (msg : String)
deriving DecidableEq, Repr

/-- Outcome of one `reqwest::blocking::get(&url)` attempt, as the engine
observes it through its two external collaborators (HTTP transport and JSON
decoder): a transport error (`Err(_)` from reqwest), an OK status whose body
parses into a report `w`, an OK status whose body fails to parse with the
decoder message `msg`, or a non-OK status whose display string is `desc`. -/
inductive NetResult (W : Type) where
  | transportError
  | ok (w : W)
  | parseError (msg : String)
  | status (desc : String)
deriving DecidableEq, Repr

/-- Observable action of the spawned thread: issuing a GET, sending a value
on the channel, or sleeping a number of seconds. -/
inductive EngineEvent (W : Type) where
  | request
  | emit (x : RResult W)
  | sleep (secs : Nat)
deriving DecidableEq, Repr

variable {W : Type}

/-- Events of the `loop` body of the spawned thread, driven by the list of
network results the successive GETs return.  Mirrors `init` line by line:
each iteration issues one GET; a transport error produces no emission and
loops immediately; an OK+parsed body sends `Ok(w)`, then breaks if the
period (`60 * poll_mins` seconds) is zero, else sleeps for the period; a
parse error or a non-OK status sends `Err(msg)` and loops immediately (no
break, no sleep).  The list ends when the supplied results are exhausted. -/
def engineTrace (pollMins : Nat) : List (NetResult W) → List (EngineEvent W)
  | [] => []
  | .transportError :: rest => .request :: engineTrace pollMins rest
  | .ok w :: rest =>
    .request :: .emit (.ok w) ::
      (if 60 * pollMins = 0 then [] else .sleep (60 * pollMins) :: engineTrace pollMins rest)
  | .parseError m :: rest => .request :: .emit (.err m) :: engineTrace pollMins rest
  | .status d :: rest => .request :: .emit (.err d) :: engineTrace pollMins rest

/-- Events of the whole spawned thread: the `LOADING` send before the loop,
then the loop. -/
def sessionTrace (pollMins : Nat) (trace : List (NetResult W)) : List (EngineEvent W) :=
  .emit (.err LOADING) :: engineTrace pollMins trace

/-- The values sent on the channel, in order, extracted from an event
list. -/
def emitsOf : List (EngineEvent W) → List (RResult W) :=
  List.filterMap fun e =>
    match e with
    | .emit x => some x
    | _ => none

/-- The FIFO contents of the channel over a whole session. -/
def sessionEmissions (pollMins : Nat) (trace : List (NetResult W)) : List (RResult W) :=
  emitsOf (sessionTrace pollMins trace)

/-! ### The consumer functions (`update`, `weather`, `blocking::weather`) -/

/-- Model of `update`: one `try_recv` on the channel, whose pending queue is
the list `q`.  `Ok(x)` becomes `(some x, rest)`; the `Err(_)` cases of
`try_recv` (empty or disconnected) become `(none, q)` — no blocking, no
error. -/
def update : List (RResult W) → Option (RResult W) × List (RResult W)
  | [] => (none, [])
  | x :: rest => (some x, rest)

/-- `n` successive calls to `update`, collecting the received items. -/
def pollN : Nat → List (RResult W) → List (RResult W)
  | 0, _ => []
  | n + 1, q =>
    match update q with
    | (none, q') => pollN n q'
    | (some x, q') => x :: pollN n q'

/-- The receive loop of `weather`: walk the channel contents in order,
skipping nothing-yet polls; return the first `Ok`, skip an `Err` equal to
`LOADING`, return the first other `Err`.  `none` models the loop spinning
forever because no such item ever arrives. -/
def weatherLoop : List (RResult W) → Option (RResult W)
  | [] => none
  | .ok w :: _ => some (.ok w)
  | .err e :: rest => if e = LOADING then weatherLoop rest else some (.err e)

/-- Model of the async `weather` entry point: start a session with
`poll_mins = 0` and run the receive loop on its emissions. -/
def weather (trace : List (NetResult W)) : Option (RResult W) :=
  weatherLoop (sessionEmissions 0 trace)

/-- `blocking::weather` is `executor::block_on(super::weather(..))`: the
same result, delivered synchronously. -/
def weatherBlocking (trace : List (NetResult W)) : Option (RResult W) :=
  weather trace

/-! ### Observers used to state the temporal claims -/

/-- A channel value that the spec calls terminal: a `Success`, or a
`Failure` other than the loading sentinel. -/
def isTerminalOutcome : RResult W → Bool
  | .ok _ => true
  | .err e => !(e == LOADING)

/-- Number of `Success` emissions in a channel history. -/
def okCount (l : List (RResult W)) : Nat :=
  l.countP fun x =>
    match x with
    | .ok _ => true
    | .err _ => false

/-- Holds when nothing at all follows the first `Ok` emission in an event
list (the thread broke out of its loop there). -/
def stopsAtFirstSuccess : List (EngineEvent W) → Bool
  | [] => true
  | .emit (.ok _) :: rest => rest.isEmpty
  | _ :: rest => stopsAtFirstSuccess rest

/-- Holds when every `Err` emission is followed immediately by the next GET
(or by the end of the recorded events): no sleep separates a failure from
the next request. -/
def failuresImmediate : List (EngineEvent W) → Bool
  | [] => true
  | .emit (.err _) :: rest =>
    (match rest with
     | [] => true
     | .request :: _ => true
     | _ => false) && failuresImmediate rest
  | _ :: rest => failuresImmediate rest

/-- Holds when every `Ok` emission is followed immediately by a sleep of
`d` seconds (or ends the recorded events). -/
def successesSleep (d : Nat) : List (EngineEvent W) → Bool
  | [] => true
  | .emit (.ok _) :: rest =>
    (match rest with
     | [] => true
     | .sleep q :: _ => q == d
     | _ => false) && successesSleep d rest
  | _ :: rest => successesSleep d rest

/-- Holds when a sleep occurs before the next request (or no request
follows at all). -/
def sleepBeforeRequest : List (EngineEvent W) → Bool
  | [] => true
  | .sleep _ :: _ => true
  | .request :: _ => false
  | _ :: rest => sleepBeforeRequest rest

/-- Holds when after every `Err` emission a sleep occurs before the next
request — what claim C2 asserts of failure outcomes. -/
def failuresSleepFirst : List (EngineEvent W) → Bool
  | [] => true
  | .emit (.err _) :: rest => sleepBeforeRequest rest && failuresSleepFirst rest
  | _ :: rest => failuresSleepFirst rest

/-- A network result whose failure description is not the loading sentinel
(true of the real collaborators: status displays are `"401 Unauthorized"`
style and serde messages carry positions, never exactly `"loading..."`). -/
def netClean : NetResult W → Bool
  | .parseError m => !(m == LOADING)
  | .status d => !(d == LOADING)
  | _ => true

end OWM

namespace OWM

/-! ### Helper lemmas on `takeWhile`/`dropWhile` -/

variable {W : Type}

theorem takeWhile_append_all {p : Char → Bool} :
    ∀ {d r : List Char}, d.all p = true → headNot p r = true → (d ++ r).takeWhile p = d := by
  intro d
  induction d with
  | nil =>
    intro r _ hr
    cases r with
    | nil => rfl
    | cons c t =>
      simp only [headNot, Bool.not_eq_true'] at hr
      simp [List.takeWhile_cons, hr]
  | cons a d ih =>
    intro r hall hr
    simp only [List.all_cons, Bool.and_eq_true] at hall
    simp [List.takeWhile_cons, hall.1, ih hall.2 hr]

theorem dropWhile_append_all {p : Char → Bool} :
    ∀ {d r : List Char}, d.all p = true → headNot p r = true → (d ++ r).dropWhile p = r := by
  intro d
  induction d with
  | nil =>
    intro r _ hr
    cases r with
    | nil => rfl
    | cons c t =>
      simp only [headNot, Bool.not_eq_true'] at hr
      simp [List.dropWhile_cons, hr]
  | cons a d ih =>
    intro r hall hr
    simp only [List.all_cons, Bool.and_eq_true] at hall
    simp [List.dropWhile_cons, hall.1, ih hall.2 hr]

theorem takeWhile_ne_nil_of_head {p : Char → Bool} {c : Char} {t : List Char}
    (h : p c = true) : (c :: t).takeWhile p ≠ [] := by
  simp [List.takeWhile_cons, h]

/-! ### Helper lemmas on character classes -/

theorem not_digit_of_space {c : Char} (h : isSpaceChar c = true) : c.isDigit = false := by
  simp only [isSpaceChar, Bool.or_eq_true, beq_iff_eq] at h
  rcases h with ((((h | h) | h) | h) | h) | h <;> subst h <;> decide

theorem ne_minus_of_digit {c : Char} (h : c.isDigit = true) : (c == '-') = false := by
  cases hb : (c == '-') with
  | false => rfl
  | true =>
    have hc : c = '-' := eq_of_beq hb
    subst hc
    exact absurd h (by decide)

theorem ne_plus_of_digit {c : Char} (h : c.isDigit = true) : (c == '+') = false := by
  cases hb : (c == '+') with
  | false => rfl
  | true =>
    have hc : c = '+' := eq_of_beq hb
    subst hc
    exact absurd h (by decide)

theorem headNot_space_decimal {sg : Bool} {e1 e2 : List Char} (h1 : e1 ≠ [])
    (h2 : e1.all Char.isDigit = true) (r : List Char) :
    headNot isSpaceChar (decimalChars sg e1 e2 ++ r) = true := by
  cases sg with
  | true =>
    have hshape : decimalChars true e1 e2 ++ r = '-' :: ((e1 ++ '.' :: e2) ++ r) := by
      simp [decimalChars]
    rw [hshape]
    rfl
  | false =>
    cases e1 with
    | nil => exact absurd rfl h1
    | cons c t =>
      simp only [List.all_cons, Bool.and_eq_true] at h2
      have hs : isSpaceChar c = false := by
        cases hsb : isSpaceChar c with
        | false => rfl
        | true => exact absurd h2.1 (by simp [not_digit_of_space hsb])
      simp [decimalChars, headNot, hs]

theorem headNot_digit_spaces {w : List Char} (hw : w.all isSpaceChar = true) (X : List Char) :
    headNot Char.isDigit (w ++ ',' :: X) = true := by
  cases w with
  | nil => rfl
  | cons c t =>
    simp only [List.all_cons, Bool.and_eq_true] at hw
    simp [headNot, not_digit_of_space hw.1]

theorem head_beq_minus_false {d1 : List Char} (h1 : d1 ≠ []) (h2 : d1.all Char.isDigit = true)
    (X : List Char) : ((d1 ++ X).head? == some '-') = false := by
  cases d1 with
  | nil => exact absurd rfl h1
  | cons c t =>
    simp only [List.all_cons, Bool.and_eq_true] at h2
    have h0 : ((c :: t ++ X).head? == some '-') = (c == '-') := rfl
    rw [h0, ne_minus_of_digit h2.1]

/-! ### Helper lemmas on `parseU64` -/

theorem mem_stripPlus_of_ne {l : List Char} {c : Char} (hm : c ∈ l) (hne : c ≠ '+') :
    c ∈ stripPlus l := by
  cases l with
  | nil => cases hm
  | cons a t =>
    by_cases ha : a = '+'
    · subst ha
      have hmem : c ∈ t := by
        rcases List.mem_cons.1 hm with h | h
        · exact absurd h hne
        · exact h
      have hc : ((('+' : Char) :: t).head? == some '+') = true := rfl
      simp [stripPlus, hc, hmem]
    · have hc : ((a :: t).head? == some '+') = (a == '+') := rfl
      have ha' : (a == '+') = false := by
        cases hb : (a == '+') with
        | false => rfl
        | true => exact absurd (eq_of_beq hb) ha
      simp [stripPlus, hc, ha']
      simpa using hm

theorem parseU64_none_of_dot {l : List Char} (h : '.' ∈ l) : parseU64 l = none := by
  have hm : '.' ∈ stripPlus l := mem_stripPlus_of_ne h (by decide)
  have hne : stripPlus l ≠ [] := List.ne_nil_of_mem hm
  have hall : (stripPlus l).all Char.isDigit = false := by
    cases hb : (stripPlus l).all Char.isDigit with
    | false => rfl
    | true =>
      have := List.all_eq_true.1 hb _ hm
      exact absurd this (by decide)
  simp [parseU64, hne, hall]

theorem parseU64_some_of_digits {l : List Char} (h1 : l ≠ [])
    (h2 : l.all Char.isDigit = true) (h3 : digitsVal l < 2 ^ 64) :
    parseU64 l = some (digitsVal l) := by
  have hsp : stripPlus l = l := by
    cases l with
    | nil => exact absurd rfl h1
    | cons c t =>
      simp only [List.all_cons, Bool.and_eq_true] at h2
      have hc : ((c :: t).head? == some '+') = (c == '+') := rfl
      simp [stripPlus, hc, ne_plus_of_digit h2.1]
  have h3' : digitsVal l < 18446744073709551616 := h3
  simp [parseU64, hsp, h1, h2, h3']

/-! ### Helper lemmas on the regex model -/

theorem matchDigits_eq {d : List Char} (r : List Char) (h1 : d ≠ [])
    (h2 : d.all Char.isDigit = true) (h3 : headNot Char.isDigit r = true) :
    matchDigits (d ++ r) = some (d, r) := by
  have ht := takeWhile_append_all h2 h3
  have hd := dropWhile_append_all h2 h3
  simp [matchDigits, ht, hd, h1]

theorem matchDigits_cons_digit {c : Char} (t : List Char) (h : c.isDigit = true) :
    matchDigits (c :: t) =
      some ((c :: t).takeWhile Char.isDigit, (c :: t).dropWhile Char.isDigit) := by
  have hne : (c :: t).takeWhile Char.isDigit ≠ [] := takeWhile_ne_nil_of_head h
  simp [matchDigits, hne]

theorem matchDecimalTail_eq (sgn : List Char) {d1 d2 : List Char} (rest : List Char)
    (h1 : d1 ≠ []) (h2 : d1.all Char.isDigit = true)
    (h3 : d2 ≠ []) (h4 : d2.all Char.isDigit = true)
    (h5 : headNot Char.isDigit rest = true) :
    matchDecimalTail sgn (d1 ++ '.' :: (d2 ++ rest)) = some (sgn ++ d1 ++ '.' :: d2, rest) := by
  have hm1 : matchDigits (d1 ++ '.' :: (d2 ++ rest)) = some (d1, '.' :: (d2 ++ rest)) :=
    matchDigits_eq _ h1 h2 (by simp only [headNot]; rfl)
  have hm2 : matchDigits (d2 ++ rest) = some (d2, rest) := matchDigits_eq _ h3 h4 h5
  simp [matchDecimalTail, hm1, hm2]

theorem matchDecimalTail_isSome (sgn : List Char) {d1 d2 : List Char} (rest : List Char)
    (h1 : d1 ≠ []) (h2 : d1.all Char.isDigit = true)
    (h3 : d2 ≠ []) (h4 : d2.all Char.isDigit = true) :
    (matchDecimalTail sgn (d1 ++ '.' :: (d2 ++ rest))).isSome = true := by
  obtain ⟨c2, t2, hct2⟩ : ∃ c t, d2 = c :: t := by
    cases d2 with
    | nil => exact absurd rfl h3
    | cons c t => exact ⟨c, t, rfl⟩
  subst hct2
  have hm1 : matchDigits (d1 ++ '.' :: c2 :: (t2 ++ rest)) =
      some (d1, '.' :: c2 :: (t2 ++ rest)) :=
    matchDigits_eq _ h1 h2 (by simp only [headNot]; rfl)
  have hc2dig : c2.isDigit = true := by
    simp only [List.all_cons, Bool.and_eq_true] at h4
    exact h4.1
  have hm2 := matchDigits_cons_digit (t2 ++ rest) hc2dig
  simp [matchDecimalTail, hm1, hm2]

theorem matchDecimal_eq (sg : Bool) {d1 d2 : List Char} (rest : List Char)
    (h1 : d1 ≠ []) (h2 : d1.all Char.isDigit = true)
    (h3 : d2 ≠ []) (h4 : d2.all Char.isDigit = true)
    (h5 : headNot Char.isDigit rest = true) :
    matchDecimal (decimalChars sg d1 d2 ++ rest) = some (decimalChars sg d1 d2, rest) := by
  cases sg with
  | false =>
    have hshape : decimalChars false d1 d2 ++ rest = d1 ++ '.' :: (d2 ++ rest) := by
      simp [decimalChars]
    rw [hshape]
    simp only [matchDecimal]
    rw [head_beq_minus_false h1 h2]
    simp only [Bool.false_eq_true, if_false]
    rw [matchDecimalTail_eq [] rest h1 h2 h3 h4 h5]
    simp [decimalChars]
  | true =>
    have hshape : decimalChars true d1 d2 ++ rest = '-' :: (d1 ++ '.' :: (d2 ++ rest)) := by
      simp [decimalChars]
    rw [hshape]
    simp only [matchDecimal]
    have hc : (('-' :: (d1 ++ '.' :: (d2 ++ rest))).head? == some '-') = true := rfl
    rw [hc]
    simp only [if_true, List.tail_cons]
    rw [matchDecimalTail_eq ['-'] rest h1 h2 h3 h4 h5]
    simp [decimalChars]

theorem matchDecimal_isSome (sg : Bool) {d1 d2 : List Char} (rest : List Char)
    (h1 : d1 ≠ []) (h2 : d1.all Char.isDigit = true)
    (h3 : d2 ≠ []) (h4 : d2.all Char.isDigit = true) :
    (matchDecimal (decimalChars sg d1 d2 ++ rest)).isSome = true := by
  cases sg with
  | false =>
    have hshape : decimalChars false d1 d2 ++ rest = d1 ++ '.' :: (d2 ++ rest) := by
      simp [decimalChars]
    rw [hshape]
    simp only [matchDecimal]
    rw [head_beq_minus_false h1 h2]
    simp only [Bool.false_eq_true, if_false]
    exact matchDecimalTail_isSome [] rest h1 h2 h3 h4
  | true =>
    have hshape : decimalChars true d1 d2 ++ rest = '-' :: (d1 ++ '.' :: (d2 ++ rest)) := by
      simp [decimalChars]
    rw [hshape]
    simp only [matchDecimal]
    have hc : (('-' :: (d1 ++ '.' :: (d2 ++ rest))).head? == some '-') = true := rfl
    rw [hc]
    simp only [if_true, List.tail_cons]
    exact matchDecimalTail_isSome ['-'] rest h1 h2 h3 h4

theorem matchDecimal_cons_none {a : Char} (X : List Char)
    (h1 : a.isDigit = false) (h2 : (a == '-') = false) : matchDecimal (a :: X) = none := by
  simp only [matchDecimal]
  have hc : ((a :: X).head? == some '-') = (a == '-') := rfl
  rw [hc, h2]
  simp only [Bool.false_eq_true, if_false]
  have ht : (a :: X).takeWhile Char.isDigit = [] := by
    simp [List.takeWhile_cons, h1]
  simp [matchDecimalTail, matchDigits, ht]

theorem matchPairAt_nil : matchPairAt ([] : List Char) = none := rfl

theorem matchPairAt_cons_none {a : Char} (X : List Char)
    (h1 : a.isDigit = false) (h2 : (a == '-') = false) : matchPairAt (a :: X) = none := by
  simp [matchPairAt, matchDecimal_cons_none X h1 h2]

theorem matchPairAt_eq (sg1 sg2 : Bool) {d1 d2 e1 e2 w1 w2 : List Char} (rest : List Char)
    (hd1 : d1 ≠ []) (hd2 : d1.all Char.isDigit = true)
    (hd3 : d2 ≠ []) (hd4 : d2.all Char.isDigit = true)
    (he1 : e1 ≠ []) (he2 : e1.all Char.isDigit = true)
    (he3 : e2 ≠ []) (he4 : e2.all Char.isDigit = true)
    (hw1 : w1.all isSpaceChar = true) (hw2 : w2.all isSpaceChar = true)
    (hrest : headNot Char.isDigit rest = true) :
    matchPairAt (pairChars sg1 d1 d2 w1 w2 sg2 e1 e2 ++ rest) =
      some (decimalChars sg1 d1 d2, decimalChars sg2 e1 e2) := by
  have hshape : pairChars sg1 d1 d2 w1 w2 sg2 e1 e2 ++ rest =
      decimalChars sg1 d1 d2 ++ (w1 ++ ',' :: (w2 ++ (decimalChars sg2 e1 e2 ++ rest))) := by
    simp [pairChars]
  have hm1 := matchDecimal_eq sg1
    (w1 ++ ',' :: (w2 ++ (decimalChars sg2 e1 e2 ++ rest))) hd1 hd2 hd3 hd4
    (headNot_digit_spaces hw1 _)
  have hdw : (w1 ++ ',' :: (w2 ++ (decimalChars sg2 e1 e2 ++ rest))).dropWhile isSpaceChar =
      ',' :: (w2 ++ (decimalChars sg2 e1 e2 ++ rest)) :=
    dropWhile_append_all hw1 (by simp only [headNot]; rfl)
  have hdw2 : (w2 ++ (decimalChars sg2 e1 e2 ++ rest)).dropWhile isSpaceChar =
      decimalChars sg2 e1 e2 ++ rest :=
    dropWhile_append_all hw2 (headNot_space_decimal he1 he2 rest)
  have hm2 := matchDecimal_eq sg2 rest he1 he2 he3 he4 hrest
  rw [hshape]
  simp [matchPairAt, hm1, hdw, hdw2, hm2]

theorem matchPairAt_isSome (sg1 sg2 : Bool) {d1 d2 e1 e2 w1 w2 : List Char} (rest : List Char)
    (hd1 : d1 ≠ []) (hd2 : d1.all Char.isDigit = true)
    (hd3 : d2 ≠ []) (hd4 : d2.all Char.isDigit = true)
    (he1 : e1 ≠ []) (he2 : e1.all Char.isDigit = true)
    (he3 : e2 ≠ []) (he4 : e2.all Char.isDigit = true)
    (hw1 : w1.all isSpaceChar = true) (hw2 : w2.all isSpaceChar = true) :
    (matchPairAt (pairChars sg1 d1 d2 w1 w2 sg2 e1 e2 ++ rest)).isSome = true := by
  have hshape : pairChars sg1 d1 d2 w1 w2 sg2 e1 e2 ++ rest =
      decimalChars sg1 d1 d2 ++ (w1 ++ ',' :: (w2 ++ (decimalChars sg2 e1 e2 ++ rest))) := by
    simp [pairChars]
  have hm1 := matchDecimal_eq sg1
    (w1 ++ ',' :: (w2 ++ (decimalChars sg2 e1 e2 ++ rest))) hd1 hd2 hd3 hd4
    (headNot_digit_spaces hw1 _)
  have hdw : (w1 ++ ',' :: (w2 ++ (decimalChars sg2 e1 e2 ++ rest))).dropWhile isSpaceChar =
      ',' :: (w2 ++ (decimalChars sg2 e1 e2 ++ rest)) :=
    dropWhile_append_all hw1 (by simp only [headNot]; rfl)
  have hdw2 : (w2 ++ (decimalChars sg2 e1 e2 ++ rest)).dropWhile isSpaceChar =
      decimalChars sg2 e1 e2 ++ rest :=
    dropWhile_append_all hw2 (headNot_space_decimal he1 he2 rest)
  obtain ⟨⟨g2, r2⟩, hp⟩ :=
    Option.isSome_iff_exists.1 (matchDecimal_isSome sg2 rest he1 he2 he3 he4)
  rw [hshape]
  simp [matchPairAt, hm1, hdw, hdw2, hp]

theorem findPair_eq_of_matchAt {l : List Char} {p : List Char × List Char}
    (h : matchPairAt l = some p) : findPair l = some p := by
  cases l with
  | nil => rw [matchPairAt_nil] at h; cases h
  | cons c t => simp [findPair, h]

theorem findPair_skip {l : List Char} :
    ∀ {pre : List Char}, pre.all (fun c => !c.isDigit && !(c == '-')) = true →
      findPair (pre ++ l) = findPair l := by
  intro pre
  induction pre with
  | nil => intro _; rfl
  | cons a t ih =>
    intro hpre
    simp only [List.all_cons, Bool.and_eq_true] at hpre
    obtain ⟨⟨had, ham⟩, hall⟩ := hpre
    have h1 : a.isDigit = false := by simpa using had
    have h2 : (a == '-') = false := by simpa using ham
    have hmd : matchPairAt (a :: (t ++ l)) = none := matchPairAt_cons_none _ h1 h2
    have hall' : t.all (fun c => !c.isDigit && !(c == '-')) = true := by
      simpa using hall
    simp [findPair, hmd, ih hall']

theorem findPair_isSome_of_suffix {l : List Char} (pre : List Char)
    (h : (matchPairAt l).isSome = true) : (findPair (pre ++ l)).isSome = true := by
  induction pre with
  | nil =>
    obtain ⟨p, hp⟩ := Option.isSome_iff_exists.1 h
    simp [findPair_eq_of_matchAt hp]
  | cons a t ih =>
    have hshape : (a :: t) ++ l = a :: (t ++ l) := rfl
    rw [hshape]
    cases hm : matchPairAt (a :: (t ++ l)) with
    | some q => simp [findPair, hm]
    | none => simpa [findPair, hm] using ih

/-! ### Helper lemmas on classification and URL construction -/

theorem classify_of_parse_some {s : String} {n : Nat} (hp : parseU64 s.data = some n) :
    classify s = .ById s := by
  simp [classify, hp]

theorem classify_of_find_some {s : String} {lat lon : List Char}
    (hp : parseU64 s.data = none) (hf : findPair s.data = some (lat, lon)) :
    classify s = .ByCoordinates ⟨lat⟩ ⟨lon⟩ := by
  simp [classify, hp, hf]

theorem classify_of_both_none {s : String}
    (hp : parseU64 s.data = none) (hf : findPair s.data = none) :
    classify s = .ByName s := by
  simp [classify, hp, hf]

theorem buildUrl_of_classify_id {s : String} (h : classify s = .ById s)
    (u l k : String) : buildUrl s u l k = idUrl s u l k := by
  simp [buildUrl, h]

theorem buildUrl_of_classify_coords {s lat lon : String}
    (h : classify s = .ByCoordinates lat lon) (u l k : String) :
    buildUrl s u l k = latLonUrl lat lon u l k := by
  simp [buildUrl, h]

theorem buildUrl_of_classify_name {s : String} (h : classify s = .ByName s)
    (u l k : String) : buildUrl s u l k = nameUrl s u l k := by
  simp [buildUrl, h]

/-! ### Helper lemmas on the engine event trace -/

theorem engineTrace_head (p : Nat) (t : List (NetResult W)) :
    engineTrace p t = [] ∨ ∃ rest, engineTrace p t = .request :: rest := by
  cases t with
  | nil => exact .inl rfl
  | cons r t => cases r <;> exact .inr ⟨_, rfl⟩

theorem emitsOf_nil : emitsOf ([] : List (EngineEvent W)) = [] := rfl

theorem emitsOf_cons_request {l : List (EngineEvent W)} :
    emitsOf (.request :: l) = emitsOf l := rfl

theorem emitsOf_cons_sleep {s : Nat} {l : List (EngineEvent W)} :
    emitsOf (.sleep s :: l) = emitsOf l := rfl

theorem emitsOf_cons_emit {x : RResult W} {l : List (EngineEvent W)} :
    emitsOf (.emit x :: l) = x :: emitsOf l := rfl

theorem stopsAtFirstSuccess_cons_request {l : List (EngineEvent W)} :
    stopsAtFirstSuccess (.request :: l) = stopsAtFirstSuccess l := by
  simp [stopsAtFirstSuccess]

theorem stopsAtFirstSuccess_cons_err {m : String} {l : List (EngineEvent W)} :
    stopsAtFirstSuccess (.emit (.err m) :: l) = stopsAtFirstSuccess l := by
  simp [stopsAtFirstSuccess]

theorem stopsAtFirstSuccess_engine (t : List (NetResult W)) :
    stopsAtFirstSuccess (engineTrace 0 t) = true := by
  induction t with
  | nil => rfl
  | cons r t ih =>
    cases r with
    | transportError =>
      rw [show engineTrace 0 (.transportError :: t) = .request :: engineTrace 0 t from rfl,
        stopsAtFirstSuccess_cons_request]
      exact ih
    | ok w => simp [engineTrace, stopsAtFirstSuccess]
    | parseError m =>
      rw [show engineTrace 0 (.parseError m :: t) =
          .request :: .emit (.err m) :: engineTrace 0 t from rfl,
        stopsAtFirstSuccess_cons_request, stopsAtFirstSuccess_cons_err]
      exact ih
    | status d =>
      rw [show engineTrace 0 (.status d :: t) =
          .request :: .emit (.err d) :: engineTrace 0 t from rfl,
        stopsAtFirstSuccess_cons_request, stopsAtFirstSuccess_cons_err]
      exact ih

theorem failuresImmediate_cons_request {l : List (EngineEvent W)} :
    failuresImmediate (.request :: l) = failuresImmediate l := by
  simp [failuresImmediate]

theorem failuresImmediate_cons_sleep {s : Nat} {l : List (EngineEvent W)} :
    failuresImmediate (.sleep s :: l) = failuresImmediate l := by
  simp [failuresImmediate]

theorem failuresImmediate_cons_ok {w : W} {l : List (EngineEvent W)} :
    failuresImmediate (.emit (.ok w) :: l) = failuresImmediate l := by
  simp [failuresImmediate]

theorem failuresImmediate_cons_err {m : String} {l : List (EngineEvent W)}
    (h : l = [] ∨ ∃ rest, l = .request :: rest) :
    failuresImmediate (.emit (.err m) :: l) = failuresImmediate l := by
  rcases h with h | ⟨rest, h⟩ <;> subst h <;> simp [failuresImmediate]

theorem failuresImmediate_engine (p : Nat) (t : List (NetResult W)) :
    failuresImmediate (engineTrace p t) = true := by
  induction t with
  | nil => rfl
  | cons r t ih =>
    cases r with
    | transportError =>
      rw [show engineTrace p (.transportError :: t) = .request :: engineTrace p t from rfl,
        failuresImmediate_cons_request]
      exact ih
    | ok w =>
      by_cases hp : 60 * p = 0
      · simp [engineTrace, hp, failuresImmediate]
      · rw [show engineTrace p (.ok w :: t) = .request :: .emit (.ok w) ::
            (if 60 * p = 0 then [] else .sleep (60 * p) :: engineTrace p t) from rfl,
          if_neg hp, failuresImmediate_cons_request, failuresImmediate_cons_ok,
          failuresImmediate_cons_sleep]
        exact ih
    | parseError m =>
      rw [show engineTrace p (.parseError m :: t) =
          .request :: .emit (.err m) :: engineTrace p t from rfl,
        failuresImmediate_cons_request, failuresImmediate_cons_err (engineTrace_head p t)]
      exact ih
    | status d =>
      rw [show engineTrace p (.status d :: t) =
          .request :: .emit (.err d) :: engineTrace p t from rfl,
        failuresImmediate_cons_request, failuresImmediate_cons_err (engineTrace_head p t)]
      exact ih

theorem successesSleep_cons_request {d : Nat} {l : List (EngineEvent W)} :
    successesSleep d (.request :: l) = successesSleep d l := by
  simp [successesSleep]

theorem successesSleep_cons_sleep {d s : Nat} {l : List (EngineEvent W)} :
    successesSleep d (.sleep s :: l) = successesSleep d l := by
  simp [successesSleep]

theorem successesSleep_cons_err {d : Nat} {m : String} {l : List (EngineEvent W)} :
    successesSleep d (.emit (.err m) :: l) = successesSleep d l := by
  simp [successesSleep]

theorem successesSleep_engine (p : Nat) (t : List (NetResult W)) :
    successesSleep (60 * p) (engineTrace p t) = true := by
  induction t with
  | nil => rfl
  | cons r t ih =>
    cases r with
    | transportError =>
      rw [show engineTrace p (.transportError :: t) = .request :: engineTrace p t from rfl,
        successesSleep_cons_request]
      exact ih
    | ok w =>
      by_cases hp : 60 * p = 0
      · simp [engineTrace, hp, successesSleep]
      · rw [show engineTrace p (.ok w :: t) = .request :: .emit (.ok w) ::
            (if 60 * p = 0 then [] else .sleep (60 * p) :: engineTrace p t) from rfl,
          if_neg hp, successesSleep_cons_request]
        have hred : successesSleep (60 * p)
            (.emit (.ok w) :: .sleep (60 * p) :: engineTrace p t) =
            successesSleep (60 * p) (.sleep (60 * p) :: engineTrace p t) := by
          simp [successesSleep]
        rw [hred, successesSleep_cons_sleep]
        exact ih
    | parseError m =>
      rw [show engineTrace p (.parseError m :: t) =
          .request :: .emit (.err m) :: engineTrace p t from rfl,
        successesSleep_cons_request, successesSleep_cons_err]
      exact ih
    | status d =>
      rw [show engineTrace p (.status d :: t) =
          .request :: .emit (.err d) :: engineTrace p t from rfl,
        successesSleep_cons_request, successesSleep_cons_err]
      exact ih

theorem okCount_nil : okCount ([] : List (RResult W)) = 0 := rfl

theorem okCount_cons_err {m : String} {l : List (RResult W)} :
    okCount (.err m :: l) = okCount l := by
  simp [okCount, List.countP_cons]

theorem okCount_cons_ok {w : W} {l : List (RResult W)} :
    okCount (.ok w :: l) = okCount l + 1 := by
  simp [okCount, List.countP_cons]

theorem okCount_engine_zero (t : List (NetResult W)) :
    okCount (emitsOf (engineTrace 0 t)) ≤ 1 := by
  induction t with
  | nil => exact Nat.zero_le 1
  | cons r t ih =>
    cases r with
    | transportError =>
      rw [show engineTrace 0 (.transportError :: t) = .request :: engineTrace 0 t from rfl,
        emitsOf_cons_request]
      exact ih
    | ok w => simp [engineTrace, emitsOf_cons_request, emitsOf_cons_emit, emitsOf_nil,
        okCount_cons_ok, okCount_nil]
    | parseError m =>
      rw [show engineTrace 0 (.parseError m :: t) =
          .request :: .emit (.err m) :: engineTrace 0 t from rfl,
        emitsOf_cons_request, emitsOf_cons_emit, okCount_cons_err]
      exact ih
    | status d =>
      rw [show engineTrace 0 (.status d :: t) =
          .request :: .emit (.err d) :: engineTrace 0 t from rfl,
        emitsOf_cons_request, emitsOf_cons_emit, okCount_cons_err]
      exact ih

theorem emits_engine_clean {p : Nat} {t : List (NetResult W)}
    (h : ∀ r ∈ t, netClean r = true) :
    ∀ x ∈ emitsOf (engineTrace p t),
      (∃ w, x = .ok w) ∨ ∃ m, x = .err m ∧ m ≠ LOADING := by
  induction t with
  | nil => intro x hx; rw [show engineTrace p ([] : List (NetResult W)) = [] from rfl] at hx; cases hx
  | cons r t ih =>
    have hr : netClean r = true := h r (List.mem_cons_self r t)
    have ht : ∀ r ∈ t, netClean r = true := fun r hr => h r (List.mem_cons_of_mem _ hr)
    cases r with
    | transportError =>
      rw [show engineTrace p (.transportError :: t) = .request :: engineTrace p t from rfl,
        emitsOf_cons_request]
      exact ih ht
    | ok w =>
      by_cases hp : 60 * p = 0
      · intro x hx
        rw [show engineTrace p (.ok w :: t) = .request :: .emit (.ok w) ::
            (if 60 * p = 0 then [] else .sleep (60 * p) :: engineTrace p t) from rfl,
          if_pos hp, emitsOf_cons_request, emitsOf_cons_emit, emitsOf_nil] at hx
        rcases List.mem_singleton.1 hx with h
        exact .inl ⟨w, h⟩
      · intro x hx
        rw [show engineTrace p (.ok w :: t) = .request :: .emit (.ok w) ::
            (if 60 * p = 0 then [] else .sleep (60 * p) :: engineTrace p t) from rfl,
          if_neg hp, emitsOf_cons_request, emitsOf_cons_emit, emitsOf_cons_sleep] at hx
        rcases List.mem_cons.1 hx with h | h
        · exact .inl ⟨w, h⟩
        · exact ih ht x h
    | parseError m =>
      intro x hx
      rw [show engineTrace p (.parseError m :: t) =
          .request :: .emit (.err m) :: engineTrace p t from rfl,
        emitsOf_cons_request, emitsOf_cons_emit] at hx
      rcases List.mem_cons.1 hx with hxe | hxe
      · refine .inr ⟨m, hxe, ?_⟩
        simpa [netClean] using hr
      · exact ih ht x hxe
    | status d =>
      intro x hx
      rw [show engineTrace p (.status d :: t) =
          .request :: .emit (.err d) :: engineTrace p t from rfl,
        emitsOf_cons_request, emitsOf_cons_emit] at hx
      rcases List.mem_cons.1 hx with hxe | hxe
      · refine .inr ⟨d, hxe, ?_⟩
        simpa [netClean] using hr
      · exact ih ht x hxe

/-! ### Helper lemmas on the consumer functions -/

theorem weatherLoop_eq_find (l : List (RResult W)) :
    weatherLoop l = l.find? isTerminalOutcome := by
  induction l with
  | nil => rfl
  | cons x rest ih =>
    cases x with
    | ok w => simp [weatherLoop, List.find?_cons, isTerminalOutcome]
    | err e =>
      by_cases he : e = LOADING
      · subst he
        simp [weatherLoop, List.find?_cons, isTerminalOutcome, ih]
      · have hne : (e == LOADING) = false := by
          cases hb : (e == LOADING) with
          | false => rfl
          | true => exact absurd (eq_of_beq hb) he
        simp [weatherLoop, List.find?_cons, isTerminalOutcome, he, hne]

theorem pollN_eq_take : ∀ (n : Nat) (q : List (RResult W)), pollN n q = q.take n := by
  intro n
  induction n with
  | zero => intro q; rfl
  | succ n ih =>
    intro q
    cases q with
    | nil => simp [pollN, update, ih]
    | cons x rest => simp [pollN, update, ih]

/-! ### The claims -/

/-- C1 (amended): with poll interval zero the spawned thread stops after its
first `Success` emission — nothing at all is emitted (or even attempted)
after the first `Ok` on the channel, and at most one `Success` is emitted.
As stated the claim is false: a `Failure` outcome does not stop the
zero-interval loop (see the counterexample), only a `Success` does. -/
theorem claim_C1 {W : Type} (t : List (NetResult W)) :
    stopsAtFirstSuccess (sessionTrace 0 t) = true ∧
      okCount (sessionEmissions 0 t) ≤ 1 := by
  constructor
  · rw [show sessionTrace 0 t = .emit (.err LOADING) :: engineTrace 0 t from rfl,
      stopsAtFirstSuccess_cons_err]
    exact stopsAtFirstSuccess_engine t
  · rw [show sessionEmissions 0 t = .err LOADING :: emitsOf (engineTrace 0 t) from rfl,
      okCount_cons_err]
    exact okCount_engine_zero t

/-- C1 witness: the amended statement at a concrete trace (one 401 failure,
then a success). -/
theorem claim_C1_witness :
    stopsAtFirstSuccess (sessionTrace (W := Unit) 0 [.status "401 Unauthorized", .ok ()]) =
        true ∧
      okCount (sessionEmissions (W := Unit) 0 [.status "401 Unauthorized", .ok ()]) ≤ 1 :=
  claim_C1 [.status "401 Unauthorized", .ok ()]

/-- C1 counterexample: with poll interval zero and two successive 401
responses the session emits TWO terminal outcomes (two `Failure`s) and has
not stopped — refuting "at most one Success or one Failure and then
stops". -/
theorem claim_C1_counterexample :
    sessionEmissions (W := Unit) 0 [.status "401 Unauthorized", .status "401 Unauthorized"] =
        [.err LOADING, .err "401 Unauthorized", .err "401 Unauthorized"] ∧
      ¬((sessionEmissions (W := Unit) 0
          [.status "401 Unauthorized", .status "401 Unauthorized"]).countP
            (fun x => isTerminalOutcome x) ≤ 1) := by
  constructor
  · decide
  · decide

/-- C2 (amended): after a `Failure` emission the engine issues the next GET
immediately, with no sleep in between; only after a `Success` emission does
it sleep for the configured interval (`60 * poll_mins` seconds).  As stated
(failures wait for the interval like successes do) the claim is false: the
`thread::sleep(period)` lives only in the success branch of the loop. -/
theorem claim_C2 {W : Type} (p : Nat) (t : List (NetResult W)) :
    failuresImmediate (sessionTrace p t) = true ∧
      successesSleep (60 * p) (sessionTrace p t) = true := by
  constructor
  · rw [show sessionTrace p t = .emit (.err LOADING) :: engineTrace p t from rfl,
      failuresImmediate_cons_err (engineTrace_head p t)]
    exact failuresImmediate_engine p t
  · rw [show sessionTrace p t = .emit (.err LOADING) :: engineTrace p t from rfl,
      successesSleep_cons_err]
    exact successesSleep_engine p t

/-- C2 witness: the amended statement at a concrete nonzero-interval trace. -/
theorem claim_C2_witness :
    failuresImmediate (sessionTrace (W := Unit) 1 [.status "401 Unauthorized", .ok ()]) =
        true ∧
      successesSleep (60 * 1)
        (sessionTrace (W := Unit) 1 [.status "401 Unauthorized", .ok ()]) = true :=
  claim_C2 1 [.status "401 Unauthorized", .ok ()]

/-- C2 counterexample: with poll interval one minute, a 401 failure is
followed by the next GET with NO sleep before it (the full event trace is
listed), refuting "after a Failure the engine sleeps for the configured
interval before the next GET, exactly as after a Success". -/
theorem claim_C2_counterexample :
    engineTrace (W := Unit) 1 [.status "401 Unauthorized", .ok ()] =
        [.request, .emit (.err "401 Unauthorized"), .request, .emit (.ok ()), .sleep 60] ∧
      failuresSleepFirst (engineTrace (W := Unit) 1 [.status "401 Unauthorized", .ok ()]) =
        false := by
  constructor
  · decide
  · decide

/-- C3: the loading sentinel is sent exactly once, as the very first item on
the channel, before any GET is issued (it is the head of the whole event
trace, ahead of every `request` event); provided the collaborators never
produce a failure description equal to the sentinel text (true of real
status lines and serde messages), no later emission equals the sentinel, and
every later emission is a `Success` or a non-loading `Failure`. -/
theorem claim_C3 {W : Type} (p : Nat) (t : List (NetResult W))
    (h : ∀ r ∈ t, netClean r = true) :
    (sessionTrace p t).head? = some (.emit (.err LOADING)) ∧
      sessionEmissions p t = .err LOADING :: emitsOf (engineTrace p t) ∧
      RResult.err LOADING ∉ emitsOf (engineTrace p t) ∧
      ∀ x ∈ emitsOf (engineTrace p t),
        (∃ w, x = .ok w) ∨ ∃ m, x = .err m ∧ m ≠ LOADING := by
  refine ⟨rfl, rfl, ?_, emits_engine_clean h⟩
  intro hmem
  rcases emits_engine_clean h _ hmem with ⟨w, hw⟩ | ⟨m, hm, hne⟩
  · exact absurd hw (by simp)
  · have hlm : LOADING = m := by injection hm
    exact hne hlm.symm

/-- C3 witness: the statement at a concrete clean trace. -/
theorem claim_C3_witness :
    (∀ r ∈ [(NetResult.status "401 Unauthorized" : NetResult Unit)], netClean r = true) ∧
      ((sessionTrace (W := Unit) 0 [.status "401 Unauthorized"]).head? =
          some (.emit (.err LOADING)) ∧
        sessionEmissions (W := Unit) 0 [.status "401 Unauthorized"] =
          .err LOADING :: emitsOf (engineTrace (W := Unit) 0 [.status "401 Unauthorized"]) ∧
        RResult.err LOADING ∉
          emitsOf (engineTrace (W := Unit) 0 [.status "401 Unauthorized"]) ∧
        ∀ x ∈ emitsOf (engineTrace (W := Unit) 0 [.status "401 Unauthorized"]),
          (∃ w, x = .ok w) ∨ ∃ m, x = .err m ∧ m ≠ LOADING) :=
  ⟨by decide, claim_C3 0 [.status "401 Unauthorized"] (by decide)⟩

/-- C4 (amended): for every nonempty string of ASCII digits whose value fits
in a `u64` (is below `2 ^ 64`), classification is `ById` with the original
string, and the built URL is the id-form URL carrying that exact string as
the id parameter together with the given units and lang.  As stated (every
numeric string) the claim is false: a digit string whose value is at least
`2 ^ 64` fails the `u64` parse and falls through to `ByName` (see the
counterexample). -/
theorem claim_C4 (s : String) (h1 : s.data ≠ []) (h2 : s.data.all Char.isDigit = true)
    (h3 : digitsVal s.data < 2 ^ 64) :
    classify s = .ById s ∧ ∀ u l k, buildUrl s u l k = idUrl s u l k := by
  have hp := parseU64_some_of_digits h1 h2 h3
  have hc := classify_of_parse_some hp
  exact ⟨hc, fun u l k => buildUrl_of_classify_id hc u l k⟩

/-- C4 witness: the spec's scenario `"2950159"` / `"metric"` / `"en"`,
evaluated down to the literal URL. -/
theorem claim_C4_witness :
    ("2950159".data ≠ [] ∧ "2950159".data.all Char.isDigit = true ∧
        digitsVal "2950159".data < 2 ^ 64) ∧
      classify "2950159" = LocationSpec.ById "2950159" ∧
      buildUrl "2950159" "metric" "en" "KEY" =
        "https://api.openweathermap.org/data/2.5/weather?id=2950159&units=metric&lang=en&appid=KEY" := by
  have h := claim_C4 "2950159" (by decide) (by decide) (by decide)
  refine ⟨⟨by decide, by decide, by decide⟩, h.1, ?_⟩
  rw [h.2 "metric" "en" "KEY"]
  decide

/-- C4 counterexample: `"18446744073709551616"` (that is `2 ^ 64`) is a
numeric string, yet it is classified `ByName` and the built URL carries it
as the `q` parameter, not as an id parameter. -/
theorem claim_C4_counterexample :
    "18446744073709551616".data.all Char.isDigit = true ∧
      classify "18446744073709551616" = LocationSpec.ByName "18446744073709551616" ∧
      buildUrl "18446744073709551616" "metric" "en" "KEY" =
        nameUrl "18446744073709551616" "metric" "en" "KEY" := by
  refine ⟨by decide, by decide, by decide⟩

/-- C5: every input of the shape `<decimal><spaces>,<spaces><decimal>`
(signed digits-dot-digits decimals) classifies as `ByCoordinates`, and both
decimal substrings appear verbatim — original precision included — as the
lat and lon parameters of the built URL. -/
theorem claim_C5 (sg1 sg2 : Bool) (d1 d2 e1 e2 w1 w2 : List Char)
    (hd1 : d1 ≠ []) (hd2 : d1.all Char.isDigit = true)
    (hd3 : d2 ≠ []) (hd4 : d2.all Char.isDigit = true)
    (he1 : e1 ≠ []) (he2 : e1.all Char.isDigit = true)
    (he3 : e2 ≠ []) (he4 : e2.all Char.isDigit = true)
    (hw1 : w1.all isSpaceChar = true) (hw2 : w2.all isSpaceChar = true) :
    classify ⟨pairChars sg1 d1 d2 w1 w2 sg2 e1 e2⟩ =
        .ByCoordinates ⟨decimalChars sg1 d1 d2⟩ ⟨decimalChars sg2 e1 e2⟩ ∧
      ∀ u l k, buildUrl ⟨pairChars sg1 d1 d2 w1 w2 sg2 e1 e2⟩ u l k =
        latLonUrl ⟨decimalChars sg1 d1 d2⟩ ⟨decimalChars sg2 e1 e2⟩ u l k := by
  have hpa : matchPairAt (pairChars sg1 d1 d2 w1 w2 sg2 e1 e2) =
      some (decimalChars sg1 d1 d2, decimalChars sg2 e1 e2) := by
    have h := matchPairAt_eq sg1 sg2 [] hd1 hd2 hd3 hd4 he1 he2 he3 he4
      hw1 hw2 rfl
    simpa using h
  have hf := findPair_eq_of_matchAt hpa
  have hdot : ('.' : Char) ∈ pairChars sg1 d1 d2 w1 w2 sg2 e1 e2 := by
    simp [pairChars, decimalChars]
  have hdata : (String.mk (pairChars sg1 d1 d2 w1 w2 sg2 e1 e2)).data =
      pairChars sg1 d1 d2 w1 w2 sg2 e1 e2 := rfl
  have hp : parseU64 (String.mk (pairChars sg1 d1 d2 w1 w2 sg2 e1 e2)).data = none := by
    rw [hdata]
    exact parseU64_none_of_dot hdot
  have hc := classify_of_find_some hp (by rw [hdata]; exact hf)
  exact ⟨hc, fun u l k => buildUrl_of_classify_coords hc u l k⟩

/-- C5 witness: the spec's scenario `"52.5244,13.4105"`. -/
theorem claim_C5_witness :
    classify "52.5244,13.4105" = LocationSpec.ByCoordinates "52.5244" "13.4105" ∧
      buildUrl "52.5244,13.4105" "metric" "en" "KEY" =
        latLonUrl "52.5244" "13.4105" "metric" "en" "KEY" := by
  have h := claim_C5 false false ['5', '2'] ['5', '2', '4', '4'] ['1', '3']
    ['4', '1', '0', '5'] [] [] (by decide) (by decide) (by decide) (by decide) (by decide)
    (by decide) (by decide) (by decide) (by decide) (by decide)
  exact ⟨h.1, h.2 "metric" "en" "KEY"⟩

/-- C6: an input on which the `u64` parse and the coordinate regex both fail
classifies as `ByName`, the built URL carries the input string completely
unchanged as the `q` parameter, and classification is total: every string
lands in exactly one of the three variants (no error path). -/
theorem claim_C6 (s : String) (hp : parseU64 s.data = none) (hf : findPair s.data = none) :
    classify s = .ByName s ∧ (∀ u l k, buildUrl s u l k = nameUrl s u l k) ∧
      ∀ t : String, (∃ i, classify t = .ById i) ∨
        (∃ la lo, classify t = .ByCoordinates la lo) ∨ ∃ n, classify t = .ByName n := by
  have hc := classify_of_both_none hp hf
  refine ⟨hc, fun u l k => buildUrl_of_classify_name hc u l k, ?_⟩
  intro t
  cases hct : classify t with
  | ById i => exact .inl ⟨i, rfl⟩
  | ByCoordinates la lo => exact .inr (.inl ⟨la, lo, rfl⟩)
  | ByName n => exact .inr (.inr ⟨n, rfl⟩)

/-- C6 witness: the spec's scenario `"Berlin,DE"` — the comma-separated
country suffix is forwarded unchanged. -/
theorem claim_C6_witness :
    classify "Berlin,DE" = LocationSpec.ByName "Berlin,DE" ∧
      buildUrl "Berlin,DE" "metric" "en" "KEY" =
        nameUrl "Berlin,DE" "metric" "en" "KEY" := by
  have h := claim_C6 "Berlin,DE" (by decide) (by decide)
  exact ⟨h.1, h.2.1 "metric" "en" "KEY"⟩

/-- C7: `weather` (and `blocking::weather`, which merely blocks on it) never
returns the loading sentinel: its result is exactly the first channel item
of its zero-interval session that is a `Success` or a non-loading
`Failure`, and any returned item satisfies both properties. -/
theorem claim_C7 {W : Type} (t : List (NetResult W)) :
    weather t = (sessionEmissions 0 t).find? isTerminalOutcome ∧
      weatherBlocking t = weather t ∧
      ∀ r, weather t = some r → isTerminalOutcome r = true ∧ r ≠ .err LOADING := by
  have h1 : weather t = (sessionEmissions 0 t).find? isTerminalOutcome :=
    weatherLoop_eq_find _
  refine ⟨h1, rfl, ?_⟩
  intro r hr
  rw [h1] at hr
  have hterm : isTerminalOutcome r = true := List.find?_some hr
  refine ⟨hterm, ?_⟩
  intro he
  subst he
  simp [isTerminalOutcome] at hterm

/-- C7 witness: on a session whose first GET gets a 401, `weather` skips the
loading sentinel and returns the 401 failure. -/
theorem claim_C7_witness :
    weather (W := Unit) [.status "401 Unauthorized", .ok ()] =
      some (.err "401 Unauthorized") := by
  have h := (claim_C7 (W := Unit) [.status "401 Unauthorized", .ok ()]).1
  rw [h]
  decide

/-- C8: a non-blocking poll (`update`) on an empty channel returns `none`
(no blocking, no error) and leaves the queue empty; on a nonempty channel it
returns the oldest queued outcome and drains exactly that one item, so that
repeated polling observes the emissions in exact FIFO order. -/
theorem claim_C8 {W : Type} (q : List (RResult W)) :
    update q = (q.head?, q.tail) ∧ ∀ n, pollN n q = q.take n := by
  constructor
  · cases q <;> rfl
  · intro n
    exact pollN_eq_take n q

/-- C8 witness: concrete empty and nonempty polls, and a three-step drain in
emission order. -/
theorem claim_C8_witness :
    update (W := Unit) [] = (none, []) ∧
      update (W := Unit) [.err "a", .ok ()] = (some (.err "a"), [.ok ()]) ∧
      pollN 3 [(RResult.err "a" : RResult Unit), .ok (), .err "b"] =
        [.err "a", .ok (), .err "b"] := by
  refine ⟨(claim_C8 []).1, (claim_C8 [.err "a", .ok ()]).1, ?_⟩
  rw [(claim_C8 [(RResult.err "a" : RResult Unit), .ok (), .err "b"]).2 3]
  decide

/-- C9: the loading sentinel is not a distinct variant but the `Err` value
carrying exactly the text `"loading..."` (it heads the channel of every
session as an `Err`), and the receive loop of `weather` skips ANY failure
whose description equals that text — such a provider failure is
indistinguishable from the sentinel. -/
theorem claim_C9 {W : Type} :
    LOADING = "loading..." ∧
      (∀ (p : Nat) (t : List (NetResult W)),
        (sessionEmissions p t).head? = some (.err "loading...")) ∧
      ∀ rest : List (RResult W),
        weatherLoop (.err "loading..." :: rest) = weatherLoop rest := by
  refine ⟨rfl, fun p t => rfl, fun rest => ?_⟩
  simp [weatherLoop, LOADING]

/-- C9 witness: a genuine `Failure("loading...")` is skipped and the next
failure is returned instead. -/
theorem claim_C9_witness :
    weatherLoop (W := Unit) [.err "loading...", .err "401 Unauthorized"] =
        weatherLoop (W := Unit) [.err "401 Unauthorized"] ∧
      weatherLoop (W := Unit) [.err "401 Unauthorized"] =
        some (.err "401 Unauthorized") :=
  ⟨(claim_C9 (W := Unit)).2.2 [.err "401 Unauthorized"], by decide⟩

/-- C10: the coordinate regex is matched anywhere inside the location
string, not anchored: whenever a decimal-pair pattern occurs as a substring,
classification yields `ByCoordinates` built from captured substrings alone
and the built URL is the lat/lon URL of those captures — the surrounding
text does not reach the URL; moreover when the surrounding text cannot
start a match (no digits, no minus before the pair; no digit directly
after), the captures are exactly the embedded decimals. -/
theorem claim_C10 (pre post : List Char) (sg1 sg2 : Bool) (d1 d2 e1 e2 w1 w2 : List Char)
    (hd1 : d1 ≠ []) (hd2 : d1.all Char.isDigit = true)
    (hd3 : d2 ≠ []) (hd4 : d2.all Char.isDigit = true)
    (he1 : e1 ≠ []) (he2 : e1.all Char.isDigit = true)
    (he3 : e2 ≠ []) (he4 : e2.all Char.isDigit = true)
    (hw1 : w1.all isSpaceChar = true) (hw2 : w2.all isSpaceChar = true) :
    (∃ la lo, classify ⟨pre ++ (pairChars sg1 d1 d2 w1 w2 sg2 e1 e2 ++ post)⟩ =
          .ByCoordinates la lo ∧
        ∀ u l k, buildUrl ⟨pre ++ (pairChars sg1 d1 d2 w1 w2 sg2 e1 e2 ++ post)⟩ u l k =
          latLonUrl la lo u l k) ∧
      (pre.all (fun c => !c.isDigit && !(c == '-')) = true →
        headNot Char.isDigit post = true →
        classify ⟨pre ++ (pairChars sg1 d1 d2 w1 w2 sg2 e1 e2 ++ post)⟩ =
          .ByCoordinates ⟨decimalChars sg1 d1 d2⟩ ⟨decimalChars sg2 e1 e2⟩) := by
  have hdot : ('.' : Char) ∈ pre ++ (pairChars sg1 d1 d2 w1 w2 sg2 e1 e2 ++ post) := by
    simp [pairChars, decimalChars]
  have hdata : (String.mk (pre ++ (pairChars sg1 d1 d2 w1 w2 sg2 e1 e2 ++ post))).data =
      pre ++ (pairChars sg1 d1 d2 w1 w2 sg2 e1 e2 ++ post) := rfl
  have hp : parseU64
      (String.mk (pre ++ (pairChars sg1 d1 d2 w1 w2 sg2 e1 e2 ++ post))).data = none := by
    rw [hdata]
    exact parseU64_none_of_dot hdot
  constructor
  · have hs := matchPairAt_isSome sg1 sg2 post hd1 hd2 hd3 hd4 he1 he2
      he3 he4 hw1 hw2
    have hfs := findPair_isSome_of_suffix pre hs
    obtain ⟨⟨la, lo⟩, hfind⟩ := Option.isSome_iff_exists.1 hfs
    have hc := classify_of_find_some hp (by rw [hdata]; exact hfind)
    exact ⟨⟨la⟩, ⟨lo⟩, hc, fun u l k => buildUrl_of_classify_coords hc u l k⟩
  · intro hpre hpost
    have hpa := matchPairAt_eq sg1 sg2 post hd1 hd2 hd3 hd4 he1 he2 he3
      he4 hw1 hw2 hpost
    have hf1 : findPair (pairChars sg1 d1 d2 w1 w2 sg2 e1 e2 ++ post) =
        some (decimalChars sg1 d1 d2, decimalChars sg2 e1 e2) := findPair_eq_of_matchAt hpa
    have hfind : findPair (pre ++ (pairChars sg1 d1 d2 w1 w2 sg2 e1 e2 ++ post)) =
        some (decimalChars sg1 d1 d2, decimalChars sg2 e1 e2) := by
      rw [findPair_skip hpre, hf1]
    exact classify_of_find_some hp (by rw [hdata]; exact hfind)

/-- C10 witness: `"Berlin 52.5244,13.4105"` classifies as the coordinates
`52.5244` / `13.4105`; the text `Berlin` is absent from the built URL. -/
theorem claim_C10_witness :
    classify "Berlin 52.5244,13.4105" = LocationSpec.ByCoordinates "52.5244" "13.4105" ∧
      buildUrl "Berlin 52.5244,13.4105" "metric" "en" "KEY" =
        latLonUrl "52.5244" "13.4105" "metric" "en" "KEY" := by
  have h := (claim_C10 "Berlin ".data [] false false ['5', '2'] ['5', '2', '4', '4']
    ['1', '3'] ['4', '1', '0', '5'] [] [] (by decide) (by decide) (by decide) (by decide)
    (by decide) (by decide) (by decide) (by decide) (by decide) (by decide)).2
    (by decide) (by decide)
  exact ⟨h, buildUrl_of_classify_coords h "metric" "en" "KEY"⟩

end OWM
